import Mathlib

open Topology

/-!
# Verification of the RAiDER delay/weather-model core

Shallow embedding, in Lean 4, of the parts of the RAiDER repository that the
checked claims are about:

* `delay.py` — per-ray sampling geometry (`_common_delay`), the look-vector
  rescaling, the trapezoidal per-ray integration, and the parallel dispatch
  of `delay_from_grid` / `_parmap`;
* `tools/RAiDER/models/weatherModel.py` — `find_svp`, `WeatherModel._getZTD`,
  `WeatherModel.checkTime` / `WeatherModel.fetch`, `WeatherModel.load` and
  the cache filename (`out_file` / `make_weather_model_filename`);
* `tools/RAiDER/dem.py` — the `isOutside` / `isInside` extent predicates.

Machine floats are modelled by exact rationals/reals; numpy arrays by lists
or index functions; fallible numpy indexing by `Option`; file I/O and
abstract model-specific methods by explicit parameters (`fileExists`,
`fetchImpl`) and by a trace of the side-effecting steps that are performed.
-/

/-! ## dem.py : extent predicates

`isOutside(extent1, extent2)` and `isInside(extent1, extent2)` compare the
four components `[lower_lat, upper_lat, left_lon, right_lon]` of the two
extents (dem.py lines 223-250).  Extent components are floats; they are
embedded as rationals. -/

/-- `isOutside` from `dem.py`: `extent1[0] < extent2[0]` or
`extent1[1] > extent2[1]` or `extent1[2] < extent2[2]` or
`extent1[3] > extent2[3]` (each comparison strict). -/
def isOutside (extent1 extent2 : ℚ × ℚ × ℚ × ℚ) : Bool :=
  decide (extent1.1 < extent2.1) || decide (extent1.2.1 > extent2.2.1) ||
  decide (extent1.2.2.1 < extent2.2.2.1) || decide (extent1.2.2.2 > extent2.2.2.2)

/-- `isInside` from `dem.py`: the conjunction of the four non-strict
comparisons `extent1[0] <= extent2[0]`, `extent1[1] >= extent2[1]`,
`extent1[2] <= extent2[2]`, `extent1[3] >= extent2[3]`. -/
def isInside (extent1 extent2 : ℚ × ℚ × ℚ × ℚ) : Bool :=
  decide (extent1.1 ≤ extent2.1) && decide (extent1.2.1 ≥ extent2.2.1) &&
  decide (extent1.2.2.1 ≤ extent2.2.2.1) && decide (extent1.2.2.2 ≥ extent2.2.2.2)

/-! ## delay.py : ray sampling -/

/-- Integration step in meters, `_step = 1` in `delay.py`.  Float
quantities of the delay code are embedded as exact rationals. -/
def _step : ℚ := 1

/-- `np.linspace(0, L, n)`: `n` evenly spaced points from `0` to `L`,
endpoint included; `n = 1` gives just the start point `0`, `n = 0` gives
the empty array. -/
def linspace (L : ℚ) : ℕ → List ℚ
  | 0 => []
  | 1 => [0]
  | (n + 2) => (List.range (n + 2)).map (fun (j : ℕ) => (j : ℚ) * (L / ((n : ℚ) + 1)))

/-- Per-ray sample count of `_common_delay`:
`steps = np.ceil(lengths / _step)` (delay.py line 51), with the step size
kept as a parameter `s` (the module constant is `_step = 1`). -/
def numSamples (s L : ℚ) : ℕ := ⌈L / s⌉₊

/-- The path coordinates `thisspace = np.linspace(0, lengths[i], steps[i])`
of one ray (delay.py line 66). -/
def raySamples (s L : ℚ) : List ℚ := linspace L (numSamples s L)

/-- The 3-D sample positions of one ray:
`position = start_positions[i] + thisspace * scaled_look_vecs[i]`, where
`scaled_look_vecs[i] = look_vecs[i] / lengths[i]` (delay.py lines 60, 68). -/
def rayPositions (start dir : ℚ × ℚ × ℚ) (s L : ℚ) : List (ℚ × ℚ × ℚ) :=
  (raySamples s L).map (fun t => start + t • (L⁻¹ • dir))

/-- `np.trapz(y, x)`: trapezoidal rule `Σ (x_{i+1} - x_i) * (y_i + y_{i+1}) / 2`;
`0` when fewer than two samples are present. -/
def trapz : List ℚ → List ℚ → ℚ
  | y0 :: y1 :: ys, x0 :: x1 :: xs => (x1 - x0) * (y0 + y1) / 2 + trapz (y1 :: ys) (x1 :: xs)
  | _, _ => 0

/-- The integrated delay of one ray:
`delays[i] = 1e-6 * np.trapz(chunk, t_points)` (delay.py line 81), where the
chunk holds the interpolator `f` evaluated at this ray's sample positions. -/
def rayDelay (f : ℚ × ℚ × ℚ → ℚ) (start dir : ℚ × ℚ × ℚ) (s L : ℚ) : ℚ :=
  1e-6 * trapz ((rayPositions start dir s L).map f) (raySamples s L)

/-- The look-vector rescaling of `_common_delay` for an explicit
(non-Zenith) look vector with `raytrace=True`:
`look_vecs /= look_vecs[..., 2][..., np.newaxis] / _zref` (delay.py line 48),
i.e. every component is divided by `v_z / zref`.  The reference height
`_zref = util.zref` is kept as the parameter `zref`. -/
def rescaleLook (zref : ℚ) (v : ℚ × ℚ × ℚ) : ℚ × ℚ × ℚ :=
  (v.1 / (v.2.2 / zref), v.2.1 / (v.2.2 / zref), v.2.2 / (v.2.2 / zref))

/-! ## delay.py : parallel dispatch (`delay_from_grid` / `_parmap`)

`delay_from_grid(..., parallel=True)` splits the `N` query points into
contiguous ranges: `hindices = np.linspace(0, len(llas), hydro_procs + 1,
dtype=int)` and `windices = np.linspace(0, len(llas), wet_procs + 1,
dtype=int)` with `hydro_procs = num_procs // 2` and
`wet_procs = num_procs - hydro_procs` (delay.py lines 166-173); the job
tuples are then built on lines 176-180.  Out-of-range list indexing (a
Python `IndexError`) is modelled by `Option`. -/

/-- `np.linspace(0, N, k, dtype=int)` over natural bounds: `k` evenly
spaced values from `0` to `N`, truncated to integers. -/
def linspaceNat (N : ℕ) : ℕ → List ℕ
  | 0 => []
  | 1 => [0]
  | (k + 2) => (List.range (k + 2)).map (fun j => j * N / (k + 1))

/-- A dispatch job kind, `'hydro'` or `'wet'`. -/
inductive JobKind
  | hydro
  | wet
deriving DecidableEq

/-- The job list of `delay_from_grid` (delay.py lines 176-180):
`hjobs = (('hydro', hindices[i], hindices[i+1]) for i in range(hydro_procs))`
and
`wjobs = (('wet', hindices[i], hindices[i+1]) for i in range(wet_procs))`.
Note that the code builds `wjobs` from `hindices` (not from the computed
`windices`, which is never used); `Option` captures the `IndexError` that
`hindices[i + 1]` raises when `i + 1` exceeds the last index. -/
def buildJobs (numProcs N : ℕ) : Option (List (JobKind × ℕ × ℕ)) :=
  let hydroProcs := numProcs / 2
  let wetProcs := numProcs - hydroProcs
  let hindices := linspaceNat N (hydroProcs + 1)
  let _windices := linspaceNat N (wetProcs + 1)
  do
    let hjobs ← (List.range hydroProcs).mapM (fun i =>
      (hindices.get? i).bind (fun a =>
        (hindices.get? (i + 1)).map (fun b => (JobKind.hydro, a, b))))
    let wjobs ← (List.range wetProcs).mapM (fun i =>
      (hindices.get? i).bind (fun a =>
        (hindices.get? (i + 1)).map (fun b => (JobKind.wet, a, b))))
    pure (hjobs ++ wjobs)

/-- One worker job: slice `[start, end)` of the query points, mapped through
the per-point hydrostatic or wet delay (delay.py lines 183-196; the per-point
semantics of `hydrostatic_delay`/`wet_delay` is abstracted by `hf`/`wf`,
since `_common_delay` computes every ray's delay from that ray's data
alone). -/
def runJob (hf wf : (ℚ × ℚ × ℚ) → ℚ) (llas : List (ℚ × ℚ × ℚ)) :
    JobKind × ℕ × ℕ → List ℚ
  | (JobKind.hydro, a, b) => (((llas.drop a).take (b - a)).map hf)
  | (JobKind.wet, a, b) => (((llas.drop a).take (b - a)).map wf)

/-- `delay_from_grid(..., parallel=True)`: build the jobs, evaluate each job
into its own pre-assigned answer slot (`_parmap`, delay.py lines 113-139;
slot `i` always holds `f(jobs[i])`, whatever order the workers drain the
queue in), then concatenate `result[:hydro_procs]` and
`result[hydro_procs:]` (delay.py lines 199-203). -/
def delay_from_grid_par (hf wf : (ℚ × ℚ × ℚ) → ℚ) (llas : List (ℚ × ℚ × ℚ))
    (numProcs : ℕ) : Option (List ℚ × List ℚ) := do
  let jobs ← buildJobs numProcs llas.length
  let answers := jobs.map (runJob hf wf llas)
  pure (((answers.take (numProcs / 2)).flatten), ((answers.drop (numProcs / 2)).flatten))

/-- `delay_from_grid(..., parallel=False)`: hydrostatic and wet delay of
every point, in input order (delay.py lines 204-207). -/
def delay_from_grid_seq (hf wf : (ℚ × ℚ × ℚ) → ℚ) (llas : List (ℚ × ℚ × ℚ)) :
    List ℚ × List ℚ :=
  (llas.map hf, llas.map wf)

/-! ## weatherModel.py : checkTime / fetch -/

/-- The upper end `_valid_range[1]` of a model's valid date range:
`None`, the string `'Present'`, or a concrete datetime (timestamps are
embedded as integers). -/
inductive ValidUpper
  | noneU
  | present
  | finite (t : ℤ)
deriving DecidableEq

/-- The fields of a `WeatherModel` that `checkTime` reads. -/
structure WModelTime where
  name : String
  validStart : ℤ
  validUpper : ValidUpper
  lagTime : ℤ

/-- The (identical) message of the three `RuntimeError`s of `checkTime`:
`"Weather model {} is not available at {}"`. -/
def notAvailMsg (name : String) (time : ℤ) : String :=
  "Weather model " ++ name ++ " is not available at " ++ toString time

/-- The `elif self._valid_range[1] < time` test, guarded by
`is not None` and `== 'Present'` (weatherModel.py lines 251-255). -/
def upperExceeded : ValidUpper → ℤ → Bool
  | ValidUpper.finite u, time => decide (u < time)
  | _, _ => false

/-- `WeatherModel.checkTime` (weatherModel.py lines 241-257): raise if
`time < valid_range[0]`; raise if the upper bound is a date earlier than
`time`; raise if `time > utcnow() - lag_time`. -/
def checkTime (m : WModelTime) (now time : ℤ) : Except String Unit :=
  if time < m.validStart then Except.error (notAvailMsg m.name time)
  else if upperExceeded m.validUpper time then Except.error (notAvailMsg m.name time)
  else if now - m.lagTime < time then Except.error (notAvailMsg m.name time)
  else Except.ok ()

/-- `WeatherModel.fetch` (weatherModel.py lines 118-127): `checkTime` first,
then the model-specific `_fetch` (abstracted here as `fetchImpl`). -/
def fetch {α : Type} (m : WModelTime) (fetchImpl : ℤ → α) (now time : ℤ) :
    Except String α :=
  match checkTime m now time with
  | Except.error e => Except.error e
  | Except.ok _ => Except.ok (fetchImpl time)

/-! ## weatherModel.py : load / out_file -/

/-- `⌈|b|⌉` as a natural number: the Python code writes each bound as
`'{:.0f}'.format(np.ceil(np.abs(b)))`. -/
def natCeilAbs (q : ℚ) : ℕ := (⌈|q|⌉).toNat

/-- Hemisphere letter for a latitude bound (`'S'` if negative else `'N'`). -/
def hemiLat (q : ℚ) : String := if q < 0 then "S" else "N"

/-- Hemisphere letter for a longitude bound (`'W'` if negative else `'E'`). -/
def hemiLon (q : ℚ) : String := if q < 0 then "W" else "E"

/-- `make_weather_model_filename(name, time, ll_bounds)`
(weatherModel.py lines 875-903):
`'{}_{}_{:.0f}{}_{:.0f}{}_{:.0f}{}_{:.0f}{}.nc'` over the model name, the
formatted timestamp (kept abstract as a string), and the four bounds
rounded by `ceil(abs(.))` and tagged with their hemisphere letter. -/
def make_weather_model_filename (name time : String) (b : ℚ × ℚ × ℚ × ℚ) : String :=
  name ++ "_" ++ time ++ "_" ++
  toString (natCeilAbs b.1) ++ hemiLat b.1 ++ "_" ++
  toString (natCeilAbs b.2.1) ++ hemiLat b.2.1 ++ "_" ++
  toString (natCeilAbs b.2.2.1) ++ hemiLon b.2.2.1 ++ "_" ++
  toString (natCeilAbs b.2.2.2) ++ hemiLon b.2.2.2 ++ ".nc"

/-- Minimum of a list of rationals (`np.nanmin`; `0` on the empty list,
which the code never hits). -/
def listMin : List ℚ → ℚ
  | [] => 0
  | x :: xs => xs.foldl min x

/-- Maximum of a list of rationals (`np.nanmax`). -/
def listMax : List ℚ → ℚ
  | [] => 0
  | x :: xs => xs.foldl max x

/-- `WeatherModel._get_ll_bounds(lats, lons, Nextra=2)`
(weatherModel.py lines 588-607): min/max of the query lats/lons padded by
`Nextra` grid cells. -/
def get_ll_bounds (lats lons : List ℚ) (latRes lonRes : ℚ) : ℚ × ℚ × ℚ × ℚ :=
  (listMin lats - 2 * latRes, listMax lats + 2 * latRes,
   listMin lons - 2 * lonRes, listMax lons + 2 * lonRes)

/-- `WeatherModel.out_file` (weatherModel.py lines 681-693): the cache path
`os.path.join(outLoc, make_weather_model_filename(name, time, bounds))`. -/
def out_file (outLoc name time : String) (lats lons : List ℚ) (latRes lonRes : ℚ) :
    String :=
  outLoc ++ "/" ++ make_weather_model_filename name time (get_ll_bounds lats lons latRes lonRes)

/-- The side-effecting steps that `WeatherModel.load` can perform, plus
`write` (the separate persistence method, weatherModel.py lines 715-872),
so that its absence from `load`'s trace can be stated. -/
inductive LoadStep
  | load_weather
  | find_e
  | uniform_in_z
  | checkForNans
  | get_wet_refractivity
  | get_hydro_refractivity
  | adjust_grid
  | getZTD
  | write
deriving DecidableEq

/-- `WeatherModel.load` (weatherModel.py lines 172-213): compute the cache
path; if a file with that name exists, return it and do nothing else;
otherwise run `load_weather`, `_find_e`, `_uniform_in_z`, `_checkForNans`,
`_get_wet_refractivity`, `_get_hydro_refractivity`, `_adjust_grid`,
`_getZTD` in that order and return `None`.  The result is the returned
value together with the ordered trace of steps performed; `fileExists`
models `os.path.exists`. -/
def load (outLoc name time : String) (lats lons : List ℚ) (latRes lonRes : ℚ)
    (fileExists : String → Bool) : Option String × List LoadStep :=
  let outName := out_file outLoc name time lats lons latRes lonRes
  if fileExists outName then (some outName, [])
  else
    (none,
     [LoadStep.load_weather, LoadStep.find_e, LoadStep.uniform_in_z,
      LoadStep.checkForNans, LoadStep.get_wet_refractivity,
      LoadStep.get_hydro_refractivity, LoadStep.adjust_grid, LoadStep.getZTD])

/-! ## weatherModel.py : _getZTD -/

/-- One column of `WeatherModel._getZTD` (weatherModel.py lines 350-357):
for every stored level,
`total[..., level] = 1e-6 * np.trapz(refr[..., level:], x=zs[level:], axis=2)`. -/
def getZTDColumn (refr zs : List ℚ) : List ℚ :=
  (List.range refr.length).map (fun level => 1e-6 * trapz (refr.drop level) (zs.drop level))

/-- `WeatherModel._getZTD` over a full 3-D refractivity field, given as the
refractivity column at each horizontal node `(i, j)` (the `axis=2`
trapezoid acts on each column independently; the same formula is applied to
the wet and to the hydrostatic field). -/
def getZTD (refr : ℕ → ℕ → List ℚ) (zs : List ℚ) (i j : ℕ) : List ℚ :=
  getZTDColumn (refr i j) zs

/-! ## weatherModel.py : find_svp

`find_svp(t)` (weatherModel.py lines 919-951) acts elementwise on the
temperature array; it is embedded as a scalar function on ℝ (the real
exponential is needed, so this part of the embedding is on ℝ and
noncomputable).  The code computes the blended value everywhere and then
overwrites the entries with `t > t1` by the water formula and the entries
with `t < t2` by the ice formula; since those two index sets are disjoint
and disjoint from the remaining band, this is the if-chain below. -/

/-- Water-phase Buck-type saturation vapor pressure `svpw`
(before the final `* 100`). -/
noncomputable def svpw (t : ℝ) : ℝ :=
  6.1121 * Real.exp (17.502 * (t - 273.15) / (240.97 + (t - 273.15)))

/-- Ice-phase saturation vapor pressure `svpi` (before the final `* 100`). -/
noncomputable def svpi (t : ℝ) : ℝ :=
  6.1121 * Real.exp (22.587 * (t - 273.15) / (273.86 + (t - 273.15)))

/-- The blending weight `wgt = (t - t2) / (t1 - t2)` with `t1 = 273.15`,
`t2 = 250.15`. -/
noncomputable def svpWgt (t : ℝ) : ℝ := (t - 250.15) / (273.15 - 250.15)

/-- The blended value `svp = svpi + (svpw - svpi) * wgt**2`
(weatherModel.py line 944): the weight enters squared. -/
noncomputable def svpBlend (t : ℝ) : ℝ := svpi t + (svpw t - svpi t) * svpWgt t ^ 2

/-- `find_svp` (weatherModel.py lines 919-951): blend, override the two
outer regions, and scale by 100 (`svp = svp * 100`). -/
noncomputable def find_svp (t : ℝ) : ℝ :=
  (if 273.15 < t then svpw t else if t < 250.15 then svpi t else svpBlend t) * 100

/-! ## Helper lemmas -/

theorem linspace_length (L : ℚ) (n : ℕ) : (linspace L n).length = n := by
  match n with
  | 0 => rfl
  | 1 => rfl
  | (n + 2) => rw [linspace, List.length_map, List.length_range]

theorem linspace_getElem? (L : ℚ) (n j : ℕ) (hj : j < n) :
    (linspace L n)[j]? = some ((j : ℚ) * (L / ((n : ℚ) - 1))) := by
  match n with
  | 0 => omega
  | 1 =>
    have hj0 : j = 0 := by omega
    subst hj0
    simp [linspace]
  | (n + 2) =>
    rw [linspace]
    rw [List.getElem?_map]
    rw [List.getElem?_range hj]
    rw [Option.map_some']
    congr 1
    push_cast
    ring_nf

/-- `find_svp` on the strict water region. -/
theorem find_svp_of_gt {t : ℝ} (h : 273.15 < t) : find_svp t = svpw t * 100 := by
  unfold find_svp
  rw [if_pos h]

/-- `find_svp` on the strict ice region. -/
theorem find_svp_of_lt {t : ℝ} (h : t < 250.15) : find_svp t = svpi t * 100 := by
  unfold find_svp
  rw [if_neg (by linarith), if_pos h]

/-- `find_svp` on the blending band (both boundary points included). -/
theorem find_svp_of_mid {t : ℝ} (h1 : ¬273.15 < t) (h2 : ¬t < 250.15) :
    find_svp t = svpBlend t * 100 := by
  unfold find_svp
  rw [if_neg h1, if_neg h2]

/-- At the upper boundary the weight is 1 and the blend equals the water
formula. -/
theorem svpBlend_at_upper : svpBlend 273.15 = svpw 273.15 := by
  unfold svpBlend svpWgt
  norm_num

/-- At the lower boundary the weight is 0 and the blend equals the ice
formula. -/
theorem svpBlend_at_lower : svpBlend 250.15 = svpi 250.15 := by
  unfold svpBlend svpWgt
  norm_num

/-- Closed form of `trapz` on equal-length lists: the sum of the trapezoid
areas of consecutive sample pairs. -/
theorem trapz_eq_sum (y : List ℚ) : ∀ x : List ℚ, y.length = x.length →
    trapz y x = ∑ m ∈ Finset.range (x.length - 1),
      (x.getD (m + 1) 0 - x.getD m 0) * (y.getD m 0 + y.getD (m + 1) 0) / 2 := by
  induction y with
  | nil =>
    intro x h
    have hx : x = [] := by
      cases x
      · rfl
      · simp at h
    subst hx
    simp [trapz]
  | cons y0 ys ih =>
    intro x h
    cases x with
    | nil => simp at h
    | cons x0 xs =>
      cases ys with
      | nil =>
        cases xs with
        | nil => simp [trapz]
        | cons x1 xs2 => simp at h
      | cons y1 ys2 =>
        cases xs with
        | nil => simp at h
        | cons x1 xs2 =>
          have hlen : (y1 :: ys2).length = (x1 :: xs2).length := by
            simpa using h
          have hrec := ih (x1 :: xs2) hlen
          show (x1 - x0) * (y0 + y1) / 2 + trapz (y1 :: ys2) (x1 :: xs2) = _
          rw [hrec]
          have hL1 : (x1 :: xs2 : List ℚ).length - 1 = xs2.length := by simp
          have hL2 : (x0 :: x1 :: xs2 : List ℚ).length - 1 = xs2.length + 1 := by simp
          rw [hL1, hL2, Finset.sum_range_succ']
          simp only [List.getD_cons_succ, List.getD_cons_zero]
          ring

/-- `getD` with default `0` commutes with `drop`. -/
theorem getD_drop (l : List ℚ) (k m : ℕ) : (l.drop k).getD m 0 = l.getD (k + m) 0 := by
  rw [List.getD_eq_getD_get?, List.getD_eq_getD_get?, List.get?_drop]


/-- Numerator-and-denominator continuity of `svpw` away from its pole. -/
theorem continuousAt_svpw {t : ℝ} (h : 240.97 + (t - 273.15) ≠ 0) :
    ContinuousAt svpw t := by
  have hq : ContinuousAt (fun u : ℝ => 17.502 * (u - 273.15) / (240.97 + (u - 273.15))) t := by
    apply ContinuousAt.div
    · fun_prop
    · fun_prop
    · exact h
  have he : ContinuousAt
      (fun u : ℝ => Real.exp (17.502 * (u - 273.15) / (240.97 + (u - 273.15)))) t :=
    Real.continuous_exp.continuousAt.comp hq
  exact continuousAt_const.mul he

/-- Numerator-and-denominator continuity of `svpi` away from its pole. -/
theorem continuousAt_svpi {t : ℝ} (h : 273.86 + (t - 273.15) ≠ 0) :
    ContinuousAt svpi t := by
  have hq : ContinuousAt (fun u : ℝ => 22.587 * (u - 273.15) / (273.86 + (u - 273.15))) t := by
    apply ContinuousAt.div
    · fun_prop
    · fun_prop
    · exact h
  have he : ContinuousAt
      (fun u : ℝ => Real.exp (22.587 * (u - 273.15) / (273.86 + (u - 273.15)))) t :=
    Real.continuous_exp.continuousAt.comp hq
  exact continuousAt_const.mul he

/-- The blending weight is continuous (its denominator is the nonzero
constant `273.15 - 250.15`). -/
theorem continuousAt_svpWgt (t : ℝ) : ContinuousAt svpWgt t := by
  apply ContinuousAt.div
  · fun_prop
  · fun_prop
  · norm_num

/-- The blended value is continuous wherever both phase formulas are. -/
theorem continuousAt_svpBlend {t : ℝ} (h1 : 240.97 + (t - 273.15) ≠ 0)
    (h2 : 273.86 + (t - 273.15) ≠ 0) : ContinuousAt svpBlend t := by
  have hw := continuousAt_svpw h1
  have hi := continuousAt_svpi h2
  have hg := continuousAt_svpWgt t
  exact hi.add ((hw.sub hi).mul (hg.pow 2))

/-- `find_svp` is continuous at the upper blending boundary 273.15 K. -/
theorem find_svp_continuousAt_upper : ContinuousAt find_svp 273.15 := by
  have huniv : Set.Iic (273.15 : ℝ) ∪ Set.Ioi 273.15 = Set.univ := Set.Iic_union_Ioi
  rw [← continuousWithinAt_univ, ← huniv]
  apply ContinuousWithinAt.union
  · have hb : ContinuousWithinAt (fun u : ℝ => svpBlend u * 100)
        (Set.Iic (273.15 : ℝ)) 273.15 :=
      ((continuousAt_svpBlend (by norm_num) (by norm_num)).mul
        continuousAt_const).continuousWithinAt
    apply hb.congr_of_eventuallyEq
    · have hset : Set.Ioi (250.15 : ℝ) ∩ Set.Iic 273.15 ∈ 𝓝[Set.Iic (273.15 : ℝ)] 273.15 :=
        Filter.inter_mem (mem_nhdsWithin_of_mem_nhds (Ioi_mem_nhds (by norm_num)))
          self_mem_nhdsWithin
      exact Filter.eventuallyEq_of_mem hset
        (fun y hy => find_svp_of_mid (not_lt.mpr hy.2) (not_lt.mpr (le_of_lt hy.1)))
    · exact find_svp_of_mid (lt_irrefl _) (by norm_num)
  · have hw : ContinuousWithinAt (fun u : ℝ => svpw u * 100)
        (Set.Ioi (273.15 : ℝ)) 273.15 :=
      ((continuousAt_svpw (by norm_num)).mul continuousAt_const).continuousWithinAt
    apply hw.congr_of_eventuallyEq
    · exact Filter.eventuallyEq_of_mem self_mem_nhdsWithin
        (fun y hy => find_svp_of_gt hy)
    · rw [find_svp_of_mid (lt_irrefl _) (by norm_num), svpBlend_at_upper]

/-- `find_svp` is continuous at the lower blending boundary 250.15 K. -/
theorem find_svp_continuousAt_lower : ContinuousAt find_svp 250.15 := by
  have huniv : Set.Iic (250.15 : ℝ) ∪ Set.Ioi 250.15 = Set.univ := Set.Iic_union_Ioi
  rw [← continuousWithinAt_univ, ← huniv]
  apply ContinuousWithinAt.union
  · have hi : ContinuousWithinAt (fun u : ℝ => svpi u * 100)
        (Set.Iic (250.15 : ℝ)) 250.15 :=
      ((continuousAt_svpi (by norm_num)).mul continuousAt_const).continuousWithinAt
    apply hi.congr_of_eventuallyEq
    · apply Filter.eventuallyEq_of_mem self_mem_nhdsWithin
      intro y hy
      rcases lt_or_eq_of_le (Set.mem_Iic.mp hy) with hlt | heq
      · exact find_svp_of_lt hlt
      · subst heq
        rw [find_svp_of_mid (by norm_num) (lt_irrefl _), svpBlend_at_lower]
    · rw [find_svp_of_mid (by norm_num) (lt_irrefl _), svpBlend_at_lower]
  · have hb : ContinuousWithinAt (fun u : ℝ => svpBlend u * 100)
        (Set.Ioi (250.15 : ℝ)) 250.15 :=
      ((continuousAt_svpBlend (by norm_num) (by norm_num)).mul
        continuousAt_const).continuousWithinAt
    apply hb.congr_of_eventuallyEq
    · have hset : Set.Ioi (250.15 : ℝ) ∩ Set.Iio 273.15 ∈ 𝓝[Set.Ioi (250.15 : ℝ)] 250.15 :=
        Filter.inter_mem self_mem_nhdsWithin
          (mem_nhdsWithin_of_mem_nhds (Iio_mem_nhds (by norm_num)))
      exact Filter.eventuallyEq_of_mem hset
        (fun y hy => find_svp_of_mid (not_lt.mpr (le_of_lt hy.2)) (not_lt.mpr (le_of_lt hy.1)))
    · exact find_svp_of_mid (by norm_num) (lt_irrefl _)

/-! ## Claim theorems -/

/-- C10: for every extent `e = [lower_lat, upper_lat, left_lon, right_lon]`,
`isOutside e e` is `False` and `isInside e e` is `True`: an extent equal to
the reference extent is classified as inside by both predicates. -/
theorem isOutside_isInside_self (e : ℚ × ℚ × ℚ × ℚ) :
    isOutside e e = false ∧ isInside e e = true := by
  unfold isOutside isInside
  simp

/-- C1 (code bug): with 3 workers (`os.cpu_count() = 3`, so
`hydro_procs = 1`, `wet_procs = 2`) and 4 query points, building the wet
jobs reads `hindices[2]` from the 2-element hydro partition `hindices`
(the computed `windices` is never used), i.e. `delay_from_grid` with
`parallel=True` raises `IndexError` (modelled as `none`), while the
sequential path returns the per-point delays; with an even worker count
(4) the parallel path does agree with the sequential one. -/
theorem delay_from_grid_parallel_bug :
    delay_from_grid_par (fun _ => 1) (fun _ => 2)
      [((0 : ℚ), (0 : ℚ), (0 : ℚ)), (0, 0, 0), (0, 0, 0), (0, 0, 0)] 3 = none ∧
    delay_from_grid_seq (fun _ => 1) (fun _ => 2)
      [((0 : ℚ), (0 : ℚ), (0 : ℚ)), (0, 0, 0), (0, 0, 0), (0, 0, 0)]
      = ([1, 1, 1, 1], [2, 2, 2, 2]) ∧
    delay_from_grid_par (fun _ => 1) (fun _ => 2)
      [((0 : ℚ), (0 : ℚ), (0 : ℚ)), (0, 0, 0), (0, 0, 0), (0, 0, 0)] 4
      = some ([1, 1, 1, 1], [2, 2, 2, 2]) := by
  refine ⟨?_, ?_, ?_⟩ <;> rfl

/-- C2 counterexample: for the look vector `(0, 0, 1000)` at point height
`h = 100` with reference height `zref = 15000`, the rescaled vector's
vertical component is `15000 = zref`, not `zref - h = 14900`: the claim
"the rescaled vector's vertical component equals `zref - h`" is false. -/
theorem rescaleLook_cex :
    (rescaleLook 15000 (0, 0, 1000)).2.2 ≠ 15000 - 100 := by
  unfold rescaleLook
  norm_num

/-- C2 (amended): `_common_delay` rescales an explicit look vector
uniformly by the factor `zref / v_z`, so the rescaled vector's vertical
component equals the reference height `zref` itself, independent of the
point height (direction is preserved whenever the scale factor is
positive, i.e. when `v_z` and `zref` have the same sign). -/
theorem rescaleLook_spec (zref : ℚ) (v : ℚ × ℚ × ℚ)
    (hz : v.2.2 ≠ 0) (hzref : zref ≠ 0) :
    rescaleLook zref v = ((zref / v.2.2) * v.1, (zref / v.2.2) * v.2.1, zref) := by
  unfold rescaleLook
  simp only [Prod.mk.injEq]
  refine ⟨?_, ?_, ?_⟩
  · field_simp [hz, hzref]
    ring
  · field_simp [hz, hzref]
    ring
  · field_simp [hz, hzref]

/-- Witness for C2's amended theorem at `zref = 15000`, `v = (1, 2, 1000)`. -/
theorem rescaleLook_spec_witness :
    (((1 : ℚ), (2 : ℚ), (1000 : ℚ)).2.2 ≠ 0) ∧ ((15000 : ℚ) ≠ 0) ∧
    rescaleLook 15000 (1, 2, 1000)
      = ((15000 / 1000) * 1, (15000 / 1000) * 2, 15000) :=
  ⟨by norm_num, by norm_num,
    rescaleLook_spec 15000 (1, 2, 1000) (by norm_num) (by norm_num)⟩

/-- C3 counterexample: for the ray length `L = 1/2` (positive) at the
code's fixed step `_step = 1`, the sample count is `ceil(1/2) = 1` and the
single (hence last) sample is the origin `0`, not `L`: "the last sample's
path coordinate equals `L` exactly" fails for positive lengths `≤` the
step. -/
theorem raySamples_last_cex :
    numSamples _step (1 / 2) = 1 ∧
    (raySamples _step (1 / 2))[numSamples _step (1 / 2) - 1]? ≠ some (1 / 2) := by
  have h1 : numSamples _step (1 / 2) = 1 := by
    unfold numSamples _step
    rw [div_one, Nat.ceil_eq_iff (by norm_num)]
    norm_num
  refine ⟨h1, ?_⟩
  rw [raySamples, h1]
  simp [linspace]

/-- C3 (amended): for a ray of positive length `L` and positive step `s`,
`_common_delay` generates `ceil(L / s)` samples; sample `j` has path
coordinate `j * (L / (n - 1))` (so the samples start at the origin and are
evenly spaced); and the last sample's path coordinate equals `L` exactly
whenever the sample count is at least 2 (i.e. whenever `L > s`) — with a
single sample (`0 < L ≤ s`), `np.linspace(0, L, 1)` yields only the
origin. -/
theorem raySamples_spec (s L : ℚ) (hs : 0 < s) (hL : 0 < L) :
    (raySamples s L).length = ⌈L / s⌉₊ ∧
    (raySamples s L)[0]? = some 0 ∧
    (∀ j, j < numSamples s L →
      (raySamples s L)[j]? = some ((j : ℚ) * (L / ((numSamples s L : ℚ) - 1)))) ∧
    (2 ≤ numSamples s L → (raySamples s L)[numSamples s L - 1]? = some L) := by
  have hpos : 0 < numSamples s L := by
    unfold numSamples
    exact Nat.ceil_pos.mpr (div_pos hL hs)
  refine ⟨linspace_length L _, ?_, ?_, ?_⟩
  · rw [raySamples, linspace_getElem? L _ 0 hpos]
    norm_num
  · intro j hj
    exact linspace_getElem? L _ j hj
  · intro h2
    have hlast : numSamples s L - 1 < numSamples s L := by omega
    rw [raySamples, linspace_getElem? L _ _ hlast]
    congr 1
    have hcast : ((numSamples s L - 1 : ℕ) : ℚ) = (numSamples s L : ℚ) - 1 := by
      have : (1 : ℕ) ≤ numSamples s L := by omega
      push_cast [this]
      ring
    rw [hcast]
    have hne : (numSamples s L : ℚ) - 1 ≠ 0 := by
      have : (2 : ℚ) ≤ (numSamples s L : ℚ) := by exact_mod_cast h2
      linarith
    field_simp

/-- Witness for C3's amended theorem at `s = 1`, `L = 5/2`
(where the sample count is `ceil(5/2) = 3`). -/
theorem raySamples_spec_witness :
    (0 : ℚ) < 1 ∧ (0 : ℚ) < 5 / 2 ∧ 2 ≤ numSamples 1 (5 / 2) ∧
    (raySamples 1 (5 / 2))[numSamples 1 (5 / 2) - 1]? = some (5 / 2) := by
  have h3 : numSamples 1 (5 / 2) = 3 := by
    unfold numSamples
    rw [div_one, Nat.ceil_eq_iff (by norm_num)]
    norm_num
  refine ⟨by norm_num, by norm_num, by omega, ?_⟩
  exact (raySamples_spec 1 (5 / 2) (by norm_num) (by norm_num)).2.2.2 (by omega)

/-- C6 counterexample: a zero-length ray yields `ceil(0 / _step) = 0`
samples, not one degenerate sample. -/
theorem raySamples_zero_cex : (raySamples _step 0).length ≠ 1 := by
  have h0 : numSamples _step 0 = 0 := by
    unfold numSamples
    rw [zero_div]
    exact Nat.ceil_zero
  rw [raySamples, h0]
  simp [linspace]

/-- C6 (amended): for a zero-length look vector, `_common_delay` generates
an empty sample list (`np.linspace(0, 0, 0)`), and the integrated delay of
that ray — `1e-6 * np.trapz` over the empty chunk — is `0`, for every
interpolator `f`, ray origin, direction, and step size. -/
theorem ray_zero_length_spec (f : ℚ × ℚ × ℚ → ℚ) (start dir : ℚ × ℚ × ℚ) (s : ℚ) :
    raySamples s 0 = [] ∧ rayDelay f start dir s 0 = 0 := by
  have h : numSamples s 0 = 0 := by
    unfold numSamples
    rw [zero_div]
    exact Nat.ceil_zero
  have hsamp : raySamples s 0 = [] := by
    unfold raySamples
    rw [h]
    rfl
  refine ⟨hsamp, ?_⟩
  unfold rayDelay rayPositions
  rw [hsamp]
  simp [trapz]

/-- C4: `find_svp` is continuous at `T = 250.15 K` and at `T = 273.15 K`;
for `T ≥ 273.15` it returns exactly the pure water-phase Buck-type value
`100 * 6.1121 * exp(17.502 (T - 273.15) / (240.97 + (T - 273.15)))`, and for
`T ≤ 250.15` exactly the pure ice-phase value
`100 * 6.1121 * exp(22.587 (T - 273.15) / (273.86 + (T - 273.15)))`. -/
theorem find_svp_phases :
    ContinuousAt find_svp 250.15 ∧ ContinuousAt find_svp 273.15 ∧
    (∀ t : ℝ, 273.15 ≤ t →
      find_svp t
        = 100 * (6.1121 * Real.exp (17.502 * (t - 273.15) / (240.97 + (t - 273.15))))) ∧
    (∀ t : ℝ, t ≤ 250.15 →
      find_svp t
        = 100 * (6.1121 * Real.exp (22.587 * (t - 273.15) / (273.86 + (t - 273.15))))) := by
  refine ⟨find_svp_continuousAt_lower, find_svp_continuousAt_upper, ?_, ?_⟩
  · intro t ht
    rcases lt_or_eq_of_le ht with hlt | heq
    · rw [find_svp_of_gt hlt]
      unfold svpw
      ring
    · rw [← heq, find_svp_of_mid (lt_irrefl _) (by norm_num), svpBlend_at_upper]
      unfold svpw
      ring
  · intro t ht
    rcases lt_or_eq_of_le ht with hlt | heq
    · rw [find_svp_of_lt hlt]
      unfold svpi
      ring
    · rw [heq, find_svp_of_mid (by norm_num) (lt_irrefl _), svpBlend_at_lower]
      unfold svpi
      ring

/-- Witness for C4 at `t = 300` (water region) and `t = 200` (ice region). -/
theorem find_svp_phases_witness :
    ((273.15 : ℝ) ≤ 300) ∧
    find_svp 300
      = 100 * (6.1121 * Real.exp (17.502 * (300 - 273.15) / (240.97 + (300 - 273.15)))) ∧
    ((200 : ℝ) ≤ 250.15) ∧
    find_svp 200
      = 100 * (6.1121 * Real.exp (22.587 * (200 - 273.15) / (273.86 + (200 - 273.15)))) := by
  refine ⟨by norm_num, ?_, by norm_num, ?_⟩
  · exact find_svp_phases.2.2.1 300 (by norm_num)
  · exact find_svp_phases.2.2.2 200 (by norm_num)

/-- C5 counterexample: at `T = 261.65 K` (inside the band, where the weight
is `1/2`) the value returned by `find_svp` is not the linear blend
`(svpi + (svpw - svpi) * wgt) * 100`: the code applies the weight squared
(`wgt**2`, weatherModel.py line 944). -/
theorem find_svp_linear_cex :
    find_svp 261.65 ≠ (svpi 261.65 + (svpw 261.65 - svpi 261.65) * svpWgt 261.65) * 100 := by
  have hmid : find_svp 261.65 = svpBlend 261.65 * 100 :=
    find_svp_of_mid (by norm_num) (by norm_num)
  have hwgt : svpWgt 261.65 = 1 / 2 := by
    unfold svpWgt
    norm_num
  have hlt : svpi 261.65 < svpw 261.65 := by
    unfold svpw svpi
    have harg : (22.587 * (261.65 - 273.15) / (273.86 + (261.65 - 273.15)) : ℝ)
        < 17.502 * (261.65 - 273.15) / (240.97 + (261.65 - 273.15)) := by norm_num
    exact mul_lt_mul_of_pos_left (Real.exp_lt_exp.mpr harg) (by norm_num)
  rw [hmid]
  unfold svpBlend
  rw [hwgt]
  intro hcontra
  nlinarith [hlt]

/-- C5 (amended): for every `T` strictly between 250.15 K and 273.15 K,
`find_svp` returns the blend of the ice- and water-phase formulas with the
linear weight `w = (T - 250.15) / (273.15 - 250.15)` entering **squared**:
`svpi + (svpw - svpi) * w^2`, times 100. -/
theorem find_svp_blend_squared (t : ℝ) (h1 : 250.15 < t) (h2 : t < 273.15) :
    find_svp t =
      (6.1121 * Real.exp (22.587 * (t - 273.15) / (273.86 + (t - 273.15))) +
        (6.1121 * Real.exp (17.502 * (t - 273.15) / (240.97 + (t - 273.15))) -
          6.1121 * Real.exp (22.587 * (t - 273.15) / (273.86 + (t - 273.15)))) *
          ((t - 250.15) / (273.15 - 250.15)) ^ 2) * 100 := by
  rw [find_svp_of_mid (by linarith) (by linarith)]
  rfl

/-- Witness for C5's amended theorem at `t = 260`. -/
theorem find_svp_blend_squared_witness :
    ((250.15 : ℝ) < 260) ∧ ((260 : ℝ) < 273.15) ∧
    find_svp 260 =
      (6.1121 * Real.exp (22.587 * (260 - 273.15) / (273.86 + (260 - 273.15))) +
        (6.1121 * Real.exp (17.502 * (260 - 273.15) / (240.97 + (260 - 273.15))) -
          6.1121 * Real.exp (22.587 * (260 - 273.15) / (273.86 + (260 - 273.15)))) *
          ((260 - 250.15) / (273.15 - 250.15)) ^ 2) * 100 := by
  refine ⟨by norm_num, by norm_num, ?_⟩
  exact find_svp_blend_squared 260 (by norm_num) (by norm_num)

/-- C7: for every horizontal node `(i, j)` and every stored level
`k`, the zenith-delay field produced by `_getZTD` at level `k` equals
`1e-6` times the trapezoidal integral of the refractivity profile over the
stored z-levels from level `k` up to the *last stored level* of the column
(upper limit `zs.length - 1`: the top of the stored column, not a fixed
global ceiling).  The same formula is applied to the wet and to the
hydrostatic refractivity field. -/
theorem getZTD_levels (refr : ℕ → ℕ → List ℚ) (zs : List ℚ) (i j k : ℕ)
    (hlen : (refr i j).length = zs.length) (hk : k < (refr i j).length) :
    (getZTD refr zs i j)[k]? = some (1e-6 *
      ∑ m ∈ Finset.Ico k (zs.length - 1),
        (zs.getD (m + 1) 0 - zs.getD m 0) *
          ((refr i j).getD m 0 + (refr i j).getD (m + 1) 0) / 2) := by
  unfold getZTD getZTDColumn
  rw [List.getElem?_map, List.getElem?_range hk, Option.map_some']
  congr 1
  congr 1
  rw [trapz_eq_sum ((refr i j).drop k) (zs.drop k)
    (by rw [List.length_drop, List.length_drop, hlen])]
  rw [List.length_drop]
  rw [Finset.sum_Ico_eq_sum_range]
  have hn : zs.length - k - 1 = zs.length - 1 - k := by omega
  rw [hn]
  apply Finset.sum_congr rfl
  intro m _
  rw [getD_drop, getD_drop, getD_drop, getD_drop]
  have hidx : k + (m + 1) = k + m + 1 := by omega
  rw [hidx]

/-- Witness for C7: a single 3-level column `[1, 2, 4]` over heights
`[0, 10, 30]`, queried at level `k = 1`. -/
theorem getZTD_levels_witness :
    ((fun _ _ => ([1, 2, 4] : List ℚ)) 0 0).length = ([0, 10, 30] : List ℚ).length ∧
    1 < ((fun _ _ => ([1, 2, 4] : List ℚ)) 0 0).length ∧
    (getZTD (fun _ _ => [1, 2, 4]) [0, 10, 30] 0 0)[1]? = some ((1e-6 : ℚ) *
      ∑ m ∈ Finset.Ico 1 (([0, 10, 30] : List ℚ).length - 1),
        (([0, 10, 30] : List ℚ).getD (m + 1) 0 - ([0, 10, 30] : List ℚ).getD m 0) *
          (([1, 2, 4] : List ℚ).getD m 0 + ([1, 2, 4] : List ℚ).getD (m + 1) 0) / 2) := by
  refine ⟨by decide, by decide, ?_⟩
  exact getZTD_levels (fun _ _ => [1, 2, 4]) [0, 10, 30] 0 0 1 (by decide) (by decide)

/-- C8 counterexample: when no prepared file exists at the cache path,
`load` returns `None` (not a path) and its trace of performed steps does
not contain the `write` step: `load` does not itself persist the prepared
grid (persistence is the separate `write` method). -/
theorem load_no_persist_cex :
    (load "weather_files" "ERA-5" "2020_01_01_T00_00_00" [1] [2] 1 1 (fun _ => false)).1
      = none ∧
    LoadStep.write ∉
      (load "weather_files" "ERA-5" "2020_01_01_T00_00_00" [1] [2] 1 1 (fun _ => false)).2 := by
  constructor
  · rfl
  · decide

/-- C8 (amended): `load` returns the cache path — keyed by model name,
timestamp, and the rounded, buffered bounding box via
`out_file`/`make_weather_model_filename` — when a file with that exact name
exists; otherwise it performs the preparation pipeline in order
(`load_weather`; humidity-to-vapor-pressure `_find_e`; uniform z-regridding
`_uniform_in_z`; NaN-fill `_checkForNans`; wet and hydrostatic
refractivity derivation; grid adjustment/extent trim `_adjust_grid`;
zenith integration `_getZTD`) and returns `None` without persisting the
grid. -/
theorem load_spec (outLoc name time : String) (lats lons : List ℚ) (latRes lonRes : ℚ)
    (fileExists : String → Bool) :
    (fileExists (out_file outLoc name time lats lons latRes lonRes) = true →
      load outLoc name time lats lons latRes lonRes fileExists
        = (some (out_file outLoc name time lats lons latRes lonRes), [])) ∧
    (fileExists (out_file outLoc name time lats lons latRes lonRes) = false →
      load outLoc name time lats lons latRes lonRes fileExists
        = (none, [LoadStep.load_weather, LoadStep.find_e, LoadStep.uniform_in_z,
            LoadStep.checkForNans, LoadStep.get_wet_refractivity,
            LoadStep.get_hydro_refractivity, LoadStep.adjust_grid, LoadStep.getZTD])) := by
  constructor
  · intro h
    unfold load
    simp [h]
  · intro h
    unfold load
    simp [h]

/-- Witness for C8's amended theorem with an always-hit cache. -/
theorem load_spec_witness :
    ((fun _ : String => true) (out_file "wf" "M" "T" [1] [2] 1 1) = true) ∧
    load "wf" "M" "T" [1] [2] 1 1 (fun _ => true)
      = (some (out_file "wf" "M" "T" [1] [2] 1 1), []) :=
  ⟨rfl, (load_spec "wf" "M" "T" [1] [2] 1 1 (fun _ => true)).1 rfl⟩

/-- C9: `fetch` fails with the "not available" `RuntimeError` — before and
independently of the model-specific `_fetch` payload `fetchImpl`, whose
result it otherwise wraps — for every query time that is earlier than the
valid range's start, later than a finite (non-`'Present'`) upper bound, or
more recent than the current time minus the lag window. -/
theorem fetch_time_guard {α : Type} (m : WModelTime) (fetchImpl : ℤ → α) (now time : ℤ)
    (h : time < m.validStart ∨
      (∃ u, m.validUpper = ValidUpper.finite u ∧ u < time) ∨
      now - m.lagTime < time) :
    fetch m fetchImpl now time = Except.error (notAvailMsg m.name time) := by
  unfold fetch checkTime
  rcases h with h1 | h2 | h3
  · rw [if_pos h1]
  · by_cases hc1 : time < m.validStart
    · rw [if_pos hc1]
    · rw [if_neg hc1]
      obtain ⟨u, hu, hu2⟩ := h2
      have hex : upperExceeded m.validUpper time = true := by
        rw [hu]
        simp [upperExceeded, hu2]
      rw [if_pos hex]
  · by_cases hc1 : time < m.validStart
    · rw [if_pos hc1]
    · rw [if_neg hc1]
      by_cases hc2 : upperExceeded m.validUpper time
      · rw [if_pos hc2]
      · rw [if_neg hc2, if_pos h3]

/-- Witness for C9: a query time below the valid range's start is rejected
(with the payload `fun t => t`, never consulted). -/
theorem fetch_time_guard_witness :
    ((-5 : ℤ) < (0 : ℤ)) ∧
    fetch ⟨"ERA-5", 0, ValidUpper.finite 100, 10⟩ (fun t => t) 1000 (-5)
      = Except.error (notAvailMsg "ERA-5" (-5)) := by
  refine ⟨by norm_num, ?_⟩
  exact fetch_time_guard ⟨"ERA-5", 0, ValidUpper.finite 100, 10⟩ (fun t => t) 1000 (-5)
    (Or.inl (by norm_num))
